import Mathlib

/-!
Verification of the `@supercharge/fs` filesystem convenience layer.

The development shallowly embeds the file-locking subsystem (lock / unlock /
isLocked from `src/filesystem.ts`), the random-name generator
(`random` from `src/helper.ts`), the timestamp updater
(`updateTimestamps` from `src/filesystem.ts`) and the append helpers
(`append` / `appendLine` from `src/filesystem.ts`).

The locking wrappers delegate to the `proper-lockfile` package, whose source
is not part of this repository; its `lock` / `unlock` / `check` primitives are
modelled from the specification (marker file with staleness threshold, atomic
create-if-absent, stale markers removed and replaced on acquisition). The
wrapper bodies themselves are translated directly from `src/filesystem.ts`.

Machine state is a list of existing target files together with an association
list mapping a locked path to the creation (mtime) instant of its marker.
Time is an explicit `now : Nat` argument; the staleness threshold `stale` is
the configured duration: a marker is live iff its age `now - mtime` is
strictly below the threshold, and stale (hence ignored) once the age reaches
the threshold.
-/

/-- Filesystem state: the set of existing target files, and the lock markers
as an association list from path to the marker's creation (mtime) instant. -/
structure FsState where
  files : List String
  markers : List (String × Nat)
deriving Repr, DecidableEq

/-- Errors surfaced by the lockfile primitives. `lockContention` models the
ELOCKED rejection raised when the lock is held by a live holder and the
retry budget is exhausted. -/
inductive LockError where
  | lockContention
deriving Repr, DecidableEq

/-- Looks up the marker mtime recorded for path `p`. -/
def findMarker (entries : List (String × Nat)) (p : String) : Option Nat :=
  match entries with
  | [] => none
  | (q, mt) :: rest => if q = p then some mt else findMarker rest p

/-- Removes every marker entry recorded for path `p`. -/
def removeMarker (entries : List (String × Nat)) (p : String) : List (String × Nat) :=
  match entries with
  | [] => []
  | (q, mt) :: rest =>
    if q = p then removeMarker rest p else (q, mt) :: removeMarker rest p

/-- Number of marker entries recorded for path `p`. -/
def countMarker (entries : List (String × Nat)) (p : String) : Nat :=
  match entries with
  | [] => 0
  | (q, _) :: rest => (if q = p then 1 else 0) + countMarker rest p

/-- Marker mtime for path `p` in state `s`. -/
def markerOf (s : FsState) (p : String) : Option Nat :=
  findMarker s.markers p

/-- Number of markers for path `p` in state `s`. -/
def markerCount (s : FsState) (p : String) : Nat :=
  countMarker s.markers p

/-- Liveness of a marker: present and younger than the staleness threshold.
A marker whose age has reached the threshold is stale. -/
def isLive (now stale : Nat) : Option Nat → Bool
  | none => false
  | some mt => decide (now - mt < stale)

/-- Modelled from the spec: `proper-lockfile`'s `check` primitive (the package
source is not under src/). Returns true iff a live (non-stale) marker exists
for the path; staleness is re-evaluated from the marker's age on every call. -/
def Lockfile.check (s : FsState) (p : String) (now stale : Nat) : Except LockError Bool :=
  .ok (isLive now stale (markerOf s p))

/-- Modelled from the spec: `proper-lockfile`'s `lock` primitive with its
retry budget exhausted (the package source is not under src/). Marker creation
is an atomic create-if-absent; an existing stale marker is first removed and a
fresh marker created (the recovery transition); an existing live marker makes
acquisition fail with `lockContention`. -/
def Lockfile.lock (s : FsState) (p : String) (now stale : Nat) : Except LockError FsState :=
  match findMarker s.markers p with
  | none => .ok { s with markers := (p, now) :: s.markers }
  | some mt =>
    if now - mt < stale then
      .error .lockContention
    else
      .ok { s with markers := (p, now) :: removeMarker s.markers p }

/-- Modelled from the spec: `proper-lockfile`'s `unlock` primitive (the
package source is not under src/). Removes the marker; it must not fail when
the marker was already removed by another actor. -/
def Lockfile.unlock (s : FsState) (p : String) : Except LockError FsState :=
  .ok { s with markers := removeMarker s.markers p }

/-- From `src/filesystem.ts` `isLocked`: delegates to `Lockfile.check`. -/
def Fs.isLocked (s : FsState) (p : String) (now stale : Nat) : Except LockError Bool :=
  Lockfile.check s p now stale

/-- From `src/filesystem.ts` `isNotLocked`: negation of `isLocked`. -/
def Fs.isNotLocked (s : FsState) (p : String) (now stale : Nat) : Except LockError Bool :=
  match Fs.isLocked s p now stale with
  | .error e => .error e
  | .ok b => .ok (!b)

/-- From `src/filesystem.ts` `lock`: `if (await this.isNotLocked(file,
options)) await Lockfile.lock(file, options)`. -/
def Fs.lock (s : FsState) (p : String) (now stale : Nat) : Except LockError FsState :=
  match Fs.isNotLocked s p now stale with
  | .error e => .error e
  | .ok free => if free then Lockfile.lock s p now stale else .ok s

/-- From `src/filesystem.ts` `unlock`: `if (await this.isLocked(file,
options)) await Lockfile.unlock(file, options)`. -/
def Fs.unlock (s : FsState) (p : String) (now stale : Nat) : Except LockError FsState :=
  match Fs.isLocked s p now stale with
  | .error e => .error e
  | .ok l => if l then Lockfile.unlock s p else .ok s

instance {α β : Type} [DecidableEq α] [DecidableEq β] : DecidableEq (Except α β) := fun x y =>
  match x, y with
  | .ok u, .ok v =>
    if h : u = v then isTrue (by rw [h]) else isFalse (fun hh => h (by cases hh; rfl))
  | .error u, .error v =>
    if h : u = v then isTrue (by rw [h]) else isFalse (fun hh => h (by cases hh; rfl))
  | .ok _, .error _ => isFalse (fun hh => nomatch hh)
  | .error _, .ok _ => isFalse (fun hh => nomatch hh)

/-- One caller racing for the lock: the result of its `isNotLocked` check once
taken, the final outcome of its `Fs.lock` call once finished, and whether its
marker-creation attempt succeeded. -/
structure Caller where
  checked : Option Bool
  result : Option (Except LockError Unit)
  created : Bool
deriving Repr, DecidableEq

/-- A caller that has not run any step yet. -/
def Caller.start : Caller := ⟨none, none, false⟩

/-- One atomic micro-step of a caller executing `Fs.lock`: first the
`isNotLocked` check, then — only when the check reported the path free — the
`Lockfile.lock` creation attempt against the shared state. A finished caller
steps to itself. -/
def stepLock (s : FsState) (c : Caller) (p : String) (now stale : Nat) : FsState × Caller :=
  match c.checked with
  | none =>
    match Fs.isNotLocked s p now stale with
    | .ok free => (s, { c with checked := some free })
    | .error e => (s, { c with checked := some false, result := some (.error e) })
  | some free =>
    match c.result with
    | some _ => (s, c)
    | none =>
      if free then
        match Lockfile.lock s p now stale with
        | .ok s2 => (s2, { c with result := some (.ok ()), created := true })
        | .error e => (s, { c with result := some (.error e) })
      else
        (s, { c with result := some (.ok ()) })

/-- Two callers concurrently executing `Fs.lock` against a shared state. -/
structure RaceState where
  fs : FsState
  a : Caller
  b : Caller
deriving Repr, DecidableEq

/-- Runs one scheduled micro-step: `true` steps caller `a`, `false` steps
caller `b`. -/
def raceStep (w : RaceState) (p : String) (now stale : Nat) (pickA : Bool) : RaceState :=
  if pickA then
    let sc := stepLock w.fs w.a p now stale
    { w with fs := sc.1, a := sc.2 }
  else
    let sc := stepLock w.fs w.b p now stale
    { w with fs := sc.1, b := sc.2 }

/-- Runs a whole schedule of micro-steps. -/
def raceRun (w : RaceState) (p : String) (now stale : Nat) : List Bool → RaceState
  | [] => w
  | pick :: rest => raceRun (raceStep w p now stale pick) p now stale rest

/-- Hexadecimal alphabet used by Node's hex encoding. -/
def hexAlphabet : List Char :=
  "0123456789abcdef".data

/-- Hex digit character for a value below 16, as produced by hex encoding. -/
def hexDigit (n : Nat) : Char :=
  if n < 10 then Char.ofNat (48 + n) else Char.ofNat (87 + n)

/-- Hex encoding of one byte: high nibble first, then low nibble. -/
def byteToHex (b : Nat) : List Char :=
  [hexDigit (b / 16), hexDigit (b % 16)]

/-- Number of bytes `random` requests from the secure source:
`Crypto.randomBytes(256)` in `src/helper.ts`. -/
def randomBytesRequested : Nat := 256

/-- Hex encoding of a byte sequence, as `Buffer.toString('hex')`. -/
def hexEncode (bytes : List Nat) : List Char :=
  (bytes.map byteToHex).flatten

/-- From `src/helper.ts` `random`: hex-encodes the bytes returned by
`Crypto.randomBytes(256)` and keeps the leftmost 32 characters
(`.toString('hex').slice(0, 32)`). The `entropy` argument stands for the
byte sequence supplied by the secure random source. -/
def random (entropy : List Nat) : String :=
  String.mk ((hexEncode entropy).take 32)

/-- JavaScript runtime values passed as timestamp arguments. -/
inductive JsVal where
  | date (time : Nat)
  | num (n : Nat)
  | str (s : String)
  | undef
deriving Repr, DecidableEq

/-- From `src/helper.ts` `isDate`: `date instanceof Date`. -/
def isDate : JsVal → Bool
  | .date _ => true
  | _ => false

/-- JavaScript `typeof` on the modelled values. -/
def typeofJs : JsVal → String
  | .date _ => "object"
  | .num _ => "number"
  | .str _ => "string"
  | .undef => "undefined"

/-- Filesystem side effects performed by `updateTimestamps`. -/
inductive FsEffect where
  | utimes (path : String) (atime mtime : JsVal)
deriving Repr, DecidableEq

/-- From `src/filesystem.ts` `updateTimestamps`: rejects with an Error when
either argument is not a `Date` instance, otherwise calls `Fs.utimes`. The
second message reports `typeof lastAccessed`, exactly as the source does. -/
def updateTimestamps (path : String) (lastAccessed lastModified : JsVal) :
    Except String (List FsEffect) :=
  if !isDate lastAccessed then
    .error ("Updating the last accessed timestamp for " ++ path ++
      " requires an instance of \"Date\". Received " ++ typeofJs lastAccessed)
  else if !isDate lastModified then
    .error ("Updating the last modified timestamp for " ++ path ++
      " requires an instance of \"Date\". Received " ++ typeofJs lastAccessed)
  else
    .ok [.utimes path lastAccessed lastModified]

/-- From `src/filesystem.ts` `append`: `Fs.appendFile` appends the content at
the end of the file, modelled on the file's string contents. -/
def append (file content : String) : String :=
  file ++ content

/-- From `src/filesystem.ts` `appendLine`: appends the OS line separator
first, then the content. The separator is a parameter (`Os.EOL`). -/
def appendLine (eol file content : String) : String :=
  append (append file eol) content

/-! Helper lemmas about the marker association list. -/

theorem findMarker_removeMarker (l : List (String × Nat)) (p : String) :
    findMarker (removeMarker l p) p = none := by
  induction l with
  | nil => rfl
  | cons e rest ih =>
    obtain ⟨q, mt⟩ := e
    by_cases h : q = p <;> simp [removeMarker, findMarker, h, ih]

theorem countMarker_removeMarker (l : List (String × Nat)) (p : String) :
    countMarker (removeMarker l p) p = 0 := by
  induction l with
  | nil => rfl
  | cons e rest ih =>
    obtain ⟨q, mt⟩ := e
    by_cases h : q = p <;> simp [removeMarker, countMarker, h, ih]

theorem countMarker_of_findMarker_none (l : List (String × Nat)) (p : String)
    (h : findMarker l p = none) : countMarker l p = 0 := by
  induction l with
  | nil => rfl
  | cons e rest ih =>
    obtain ⟨q, mt⟩ := e
    by_cases hq : q = p
    · simp [findMarker, hq] at h
    · simp [findMarker, hq] at h
      simp [countMarker, hq, ih h]

theorem countMarker_pos_of_findMarker_some (l : List (String × Nat)) (p : String)
    (mt : Nat) (h : findMarker l p = some mt) : 1 ≤ countMarker l p := by
  induction l with
  | nil => simp [findMarker] at h
  | cons e rest ih =>
    obtain ⟨q, mt2⟩ := e
    by_cases hq : q = p
    · simp [countMarker, hq]
    · simp [findMarker, hq] at h
      simp [countMarker, hq]
      exact ih h

/-! Reduction lemmas for the lock wrappers. -/

theorem Fs.isLocked_eq (s : FsState) (p : String) (now stale : Nat) :
    Fs.isLocked s p now stale = .ok (isLive now stale (markerOf s p)) := rfl

theorem Fs.lock_eq (s : FsState) (p : String) (now stale : Nat) :
    Fs.lock s p now stale =
      if isLive now stale (markerOf s p) then .ok s
      else Lockfile.lock s p now stale := by
  cases h : isLive now stale (markerOf s p) <;>
    simp [Fs.lock, Fs.isNotLocked, Fs.isLocked, Lockfile.check, h]

theorem Fs.unlock_eq (s : FsState) (p : String) (now stale : Nat) :
    Fs.unlock s p now stale =
      if isLive now stale (markerOf s p) then Lockfile.unlock s p
      else .ok s := by
  cases h : isLive now stale (markerOf s p) <;>
    simp [Fs.unlock, Fs.isLocked, Lockfile.check, h]

theorem Lockfile.lock_none (s : FsState) (p : String) (now stale : Nat)
    (hm : findMarker s.markers p = none) :
    Lockfile.lock s p now stale = .ok { s with markers := (p, now) :: s.markers } := by
  unfold Lockfile.lock
  rw [hm]

theorem Lockfile.lock_some (s : FsState) (p : String) (now stale mt : Nat)
    (hm : findMarker s.markers p = some mt) :
    Lockfile.lock s p now stale =
      if now - mt < stale then .error .lockContention
      else .ok { s with markers := (p, now) :: removeMarker s.markers p } := by
  unfold Lockfile.lock
  rw [hm]

/-! Helper lemmas for the random-name generator. -/

theorem hexEncode_length (bytes : List Nat) :
    (hexEncode bytes).length = 2 * bytes.length := by
  induction bytes with
  | nil => rfl
  | cons b rest ih =>
    simp [hexEncode, byteToHex] at ih ⊢
    omega

theorem hexDigit_mem (n : Nat) (h : n < 16) : hexDigit n ∈ hexAlphabet := by
  interval_cases n <;> decide

theorem hexEncode_mem (bytes : List Nat) (hb : ∀ x ∈ bytes, x < 256)
    (c : Char) (hc : c ∈ hexEncode bytes) : c ∈ hexAlphabet := by
  simp [hexEncode, List.mem_flatten] at hc
  obtain ⟨x, hx, hcl⟩ := hc
  simp [byteToHex] at hcl
  rcases hcl with rfl | rfl
  · exact hexDigit_mem _ ((Nat.div_lt_iff_lt_mul (by omega)).mpr (by have := hb x hx; omega))
  · exact hexDigit_mem _ (Nat.mod_lt _ (by omega))

/-- Claim C3: every call to the random-name generator returns a string of
exactly 32 characters drawn from the hexadecimal alphabet 0-9a-f, and
requests at least 16 bytes (128 bits) of entropy from the secure random
source before hex-encoding and truncating to the leftmost 32 characters. -/
theorem random_spec (entropy : List Nat)
    (hlen : entropy.length = randomBytesRequested)
    (hbytes : ∀ x ∈ entropy, x < 256) :
    (random entropy).length = 32 ∧
    (∀ c ∈ (random entropy).data, c ∈ hexAlphabet) ∧
    16 ≤ randomBytesRequested := by
  refine ⟨?_, ?_, by decide⟩
  · show ((hexEncode entropy).take 32).length = 32
    rw [List.length_take, hexEncode_length, hlen]
    decide
  · intro c hc
    have hmem : c ∈ hexEncode entropy := List.take_subset _ _ hc
    exact hexEncode_mem entropy hbytes c hmem

/-- Witness for C3 at the all-zero 256-byte entropy input. -/
theorem random_spec_witness :
    (List.replicate 256 0).length = randomBytesRequested ∧
    (∀ x ∈ List.replicate 256 0, x < 256) ∧
    ((random (List.replicate 256 0)).length = 32 ∧
      (∀ c ∈ (random (List.replicate 256 0)).data, c ∈ hexAlphabet) ∧
      16 ≤ randomBytesRequested) :=
  ⟨by rw [List.length_replicate]; rfl,
    by intro x hx; rw [List.mem_replicate] at hx; omega,
    random_spec _ (by rw [List.length_replicate]; rfl)
      (by intro x hx; rw [List.mem_replicate] at hx; omega)⟩

/-- Claim C9: `updateTimestamps` rejects with an Error whenever one of the
timestamp arguments is not a `Date` instance, reaching no `utimes` call, and
calls `utimes` with both arguments when they are `Date` instances. -/
theorem updateTimestamps_spec (path : String) (a m : JsVal) :
    (isDate a = true → isDate m = true →
      updateTimestamps path a m = .ok [.utimes path a m]) ∧
    (¬(isDate a = true ∧ isDate m = true) →
      ∃ msg, updateTimestamps path a m = .error msg) := by
  constructor
  · intro ha hm
    simp [updateTimestamps, ha, hm]
  · intro h
    by_cases ha : isDate a = true
    · have hm : ¬ isDate m = true := fun hm => h ⟨ha, hm⟩
      simp [updateTimestamps, ha, hm]
    · simp [updateTimestamps, ha]

/-- Witness for C9: a non-Date access time is rejected, and two Date
arguments reach `utimes`. -/
theorem updateTimestamps_spec_witness :
    (∃ msg, updateTimestamps "f" (JsVal.num 0) (JsVal.date 0) = .error msg) ∧
    updateTimestamps "f" (JsVal.date 0) (JsVal.date 1) =
      .ok [.utimes "f" (JsVal.date 0) (JsVal.date 1)] :=
  ⟨(updateTimestamps_spec "f" (JsVal.num 0) (JsVal.date 0)).2 (by decide),
    (updateTimestamps_spec "f" (JsVal.date 0) (JsVal.date 1)).1 rfl rfl⟩

/-- Claim C10: `appendLine` appends the operating-system line separator
first and the content second, so the appended content is always preceded by
a newline; in particular a file created by a first `appendLine` call begins
with the line separator rather than with the content. -/
theorem appendLine_spec (eol file content : String) :
    appendLine eol file content = file ++ (eol ++ content) ∧
    appendLine eol "" content = eol ++ content := by
  constructor
  · show (file ++ eol) ++ content = file ++ (eol ++ content)
    exact String.append_assoc ..
  · show ("" ++ eol) ++ content = eol ++ content
    rw [String.empty_append]

/-- Claim C1: for every path, immediately after `lock` succeeds, `isLocked`
returns true; and immediately after `unlock` completes, `isLocked` returns
false (queries at the same instant, positive staleness threshold). -/
theorem lock_then_locked_unlock_then_unlocked (s : FsState) (p : String)
    (now stale : Nat) (hstale : 0 < stale) :
    (∀ s2, Fs.lock s p now stale = .ok s2 → Fs.isLocked s2 p now stale = .ok true) ∧
    (∀ s2, Fs.unlock s p now stale = .ok s2 → Fs.isLocked s2 p now stale = .ok false) := by
  constructor
  · intro s2 h
    rw [Fs.lock_eq] at h
    by_cases hl : isLive now stale (markerOf s p) = true
    · rw [if_pos hl] at h
      cases h
      rw [Fs.isLocked_eq, hl]
    · rw [if_neg hl] at h
      rcases hm : findMarker s.markers p with _ | mt
      · rw [Lockfile.lock_none s p now stale hm] at h
        cases h
        simp [Fs.isLocked_eq, markerOf, findMarker, isLive, Nat.sub_self, hstale]
      · have hnl : ¬ (now - mt < stale) := by
          intro hcon
          exact hl (by simp [markerOf, hm, isLive, hcon])
        rw [Lockfile.lock_some s p now stale mt hm, if_neg hnl] at h
        cases h
        simp [Fs.isLocked_eq, markerOf, findMarker, isLive, Nat.sub_self, hstale]
  · intro s2 h
    rw [Fs.unlock_eq] at h
    by_cases hl : isLive now stale (markerOf s p) = true
    · rw [if_pos hl] at h
      unfold Lockfile.unlock at h
      cases h
      simp [Fs.isLocked_eq, markerOf, isLive, findMarker_removeMarker]
    · rw [if_neg hl] at h
      cases h
      rw [Fs.isLocked_eq]
      rw [Bool.not_eq_true] at hl
      rw [hl]

/-- Witness for C1 on a concrete unlocked state. -/
theorem lock_then_locked_unlock_then_unlocked_witness :
    0 < 1 ∧
    ((∀ s2, Fs.lock ⟨[], []⟩ "f" 0 1 = .ok s2 → Fs.isLocked s2 "f" 0 1 = .ok true) ∧
      (∀ s2, Fs.unlock ⟨[], []⟩ "f" 0 1 = .ok s2 → Fs.isLocked s2 "f" 0 1 = .ok false)) :=
  ⟨by decide, lock_then_locked_unlock_then_unlocked ⟨[], []⟩ "f" 0 1 (by decide)⟩

/-- Claim C4: a marker whose age has reached the staleness threshold reads as
not locked, and a subsequent `lock` succeeds by removing the stale marker and
creating a fresh one, after which `isLocked` returns true. -/
theorem stale_marker_not_locked_lock_recovers (s : FsState) (p : String)
    (now stale mt : Nat) (hm : markerOf s p = some mt)
    (hstale : 0 < stale) (hage : stale ≤ now - mt) :
    Fs.isLocked s p now stale = .ok false ∧
    ∃ s2, Fs.lock s p now stale = .ok s2 ∧
      s2.markers = (p, now) :: removeMarker s.markers p ∧
      markerOf s2 p = some now ∧
      Fs.isLocked s2 p now stale = .ok true := by
  have hnl : isLive now stale (markerOf s p) = false := by
    rw [hm]
    simp only [isLive, decide_eq_false_iff_not]
    omega
  constructor
  · rw [Fs.isLocked_eq, hnl]
  · refine ⟨{ s with markers := (p, now) :: removeMarker s.markers p }, ?_, rfl, ?_, ?_⟩
    · rw [markerOf] at hm
      rw [Fs.lock_eq, if_neg (by simp [hnl]),
        Lockfile.lock_some s p now stale mt hm, if_neg (by omega)]
    · simp [markerOf, findMarker]
    · simp [Fs.isLocked_eq, markerOf, findMarker, isLive, Nat.sub_self, hstale]

/-- Witness for C4 on a concrete state holding a stale marker. -/
theorem stale_marker_not_locked_lock_recovers_witness :
    markerOf ⟨[], [("f", 0)]⟩ "f" = some 0 ∧ 0 < 5 ∧ 5 ≤ 10 - 0 ∧
    (Fs.isLocked ⟨[], [("f", 0)]⟩ "f" 10 5 = .ok false ∧
      ∃ s2, Fs.lock ⟨[], [("f", 0)]⟩ "f" 10 5 = .ok s2 ∧
        s2.markers = ("f", 10) :: removeMarker [("f", 0)] "f" ∧
        markerOf s2 "f" = some 10 ∧
        Fs.isLocked s2 "f" 10 5 = .ok true) :=
  ⟨by decide, by decide, by decide,
    stale_marker_not_locked_lock_recovers ⟨[], [("f", 0)]⟩ "f" 10 5 0
      (by decide) (by decide) (by decide)⟩

/-- Claim C5: calling `lock` twice in sequence without an intervening
`unlock` does not throw, creates no duplicate marker and leaves exactly one
marker for the path; the second call is a no-op. -/
theorem lock_twice_idempotent (s : FsState) (p : String) (now stale : Nat)
    (hstale : 0 < stale) (hcount : markerCount s p ≤ 1) :
    ∃ s1, Fs.lock s p now stale = .ok s1 ∧ markerCount s1 p = 1 ∧
      Fs.lock s1 p now stale = .ok s1 := by
  by_cases hl : isLive now stale (markerOf s p) = true
  · refine ⟨s, ?_, ?_, ?_⟩
    · rw [Fs.lock_eq, if_pos hl]
    · rcases hm : markerOf s p with _ | mt
      · rw [hm] at hl
        simp [isLive] at hl
      · rw [markerOf] at hm
        have h1 := countMarker_pos_of_findMarker_some s.markers p mt hm
        rw [markerCount] at hcount ⊢
        omega
    · rw [Fs.lock_eq, if_pos hl]
  · rw [Fs.lock_eq, if_neg hl]
    rcases hm : findMarker s.markers p with _ | mt
    · rw [Lockfile.lock_none s p now stale hm]
      refine ⟨{ s with markers := (p, now) :: s.markers }, rfl, ?_, ?_⟩
      · have h0 := countMarker_of_findMarker_none s.markers p hm
        simp [markerCount, countMarker, h0]
      · rw [Fs.lock_eq, if_pos (by simp [markerOf, findMarker, isLive, Nat.sub_self, hstale])]
    · have hnl : ¬ (now - mt < stale) := by
        intro hcon
        exact hl (by simp [markerOf, hm, isLive, hcon])
      rw [Lockfile.lock_some s p now stale mt hm, if_neg hnl]
      refine ⟨{ s with markers := (p, now) :: removeMarker s.markers p }, rfl, ?_, ?_⟩
      · have h0 := countMarker_removeMarker s.markers p
        simp [markerCount, countMarker, h0]
      · rw [Fs.lock_eq, if_pos (by simp [markerOf, findMarker, isLive, Nat.sub_self, hstale])]

/-- Witness for C5 on a concrete unlocked state. -/
theorem lock_twice_idempotent_witness :
    0 < 1 ∧ markerCount ⟨[], []⟩ "f" ≤ 1 ∧
    (∃ s1, Fs.lock ⟨[], []⟩ "f" 0 1 = .ok s1 ∧ markerCount s1 "f" = 1 ∧
      Fs.lock s1 "f" 0 1 = .ok s1) :=
  ⟨by decide, by decide, lock_twice_idempotent ⟨[], []⟩ "f" 0 1 (by decide) (by decide)⟩

/-- Claim C6: `unlock` on a path that is not currently locked (never locked,
already unlocked, or whose marker was removed or went stale) is a no-op that
does not throw and leaves the filesystem state unchanged. -/
theorem unlock_noop_when_not_locked (s : FsState) (p : String) (now stale : Nat)
    (h : Fs.isLocked s p now stale = .ok false) :
    Fs.unlock s p now stale = .ok s := by
  rw [Fs.isLocked_eq] at h
  have hl : isLive now stale (markerOf s p) = false := by
    injection h
  rw [Fs.unlock_eq, if_neg (by simp [hl])]

/-- Witness for C6 on a concrete never-locked state. -/
theorem unlock_noop_when_not_locked_witness :
    Fs.isLocked ⟨[], []⟩ "f" 0 1 = .ok false ∧
    Fs.unlock ⟨[], []⟩ "f" 0 1 = .ok ⟨[], []⟩ :=
  ⟨by decide, unlock_noop_when_not_locked ⟨[], []⟩ "f" 0 1 (by decide)⟩

/-- Claim C8: on a path whose target file does not exist, `unlock` and
`isLocked` complete without error, `isLocked` returning a boolean — locking
state is independent of the target's own existence. -/
theorem unlock_isLocked_ok_nonexistent_target (s : FsState) (p : String)
    (now stale : Nat) (hfile : p ∉ s.files) :
    (∃ s2, Fs.unlock s p now stale = .ok s2) ∧
    (∃ lk, Fs.isLocked s p now stale = .ok lk) := by
  constructor
  · rw [Fs.unlock_eq]
    by_cases hl : isLive now stale (markerOf s p) = true
    · exact ⟨{ s with markers := removeMarker s.markers p }, by rw [if_pos hl]; rfl⟩
    · exact ⟨s, by rw [if_neg hl]⟩
  · exact ⟨_, Fs.isLocked_eq s p now stale⟩

/-- Witness for C8 on a state in which the target file is absent. -/
theorem unlock_isLocked_ok_nonexistent_target_witness :
    ("f" : String) ∉ ([] : List String) ∧
    ((∃ s2, Fs.unlock ⟨[], []⟩ "f" 0 1 = .ok s2) ∧
      (∃ lk, Fs.isLocked ⟨[], []⟩ "f" 0 1 = .ok lk)) :=
  ⟨by simp, unlock_isLocked_ok_nonexistent_target ⟨[], []⟩ "f" 0 1 (by simp)⟩

/-- Counterexample to claim C2 as stated: the repository's `lock` is not the
atomic create-if-absent primitive alone. At a state live-locked by another
holder, the wrapper's preliminary `isNotLocked` check (the check-then-create
step of `src/filesystem.ts` lines 272-274) makes `lock` return successfully
with no creation attempt, while the atomic primitive itself rejects with
`lockContention`. -/
theorem lock_not_solely_atomic_cex :
    Fs.lock ⟨[], [("f", 0)]⟩ "f" 0 10 = .ok ⟨[], [("f", 0)]⟩ ∧
    Lockfile.lock ⟨[], [("f", 0)]⟩ "f" 0 10 = .error .lockContention := by
  decide

/-- Claim C2 (amended): `lock` guards the atomic create-if-absent primitive
with a preliminary `isNotLocked` check; the marker creation itself stays
atomic, so for every interleaving of two concurrent `lock` calls on the same
unlocked path in which both callers run to completion, exactly one caller's
marker-creation attempt succeeds and exactly one marker remains. -/
theorem lock_race_exactly_one_creates (fl : List String) (p : String)
    (now stale : Nat) (hstale : 0 < stale) (a b c d : Bool)
    (hsched : [a, b, c, d].count true = 2) :
    (raceRun ⟨⟨fl, []⟩, Caller.start, Caller.start⟩ p now stale [a, b, c, d]).a.created
      ≠ (raceRun ⟨⟨fl, []⟩, Caller.start, Caller.start⟩ p now stale [a, b, c, d]).b.created ∧
    markerCount (raceRun ⟨⟨fl, []⟩, Caller.start, Caller.start⟩ p now stale [a, b, c, d]).fs p
      = 1 := by
  cases a <;> cases b <;> cases c <;> cases d <;>
    simp_all [raceRun, raceStep, stepLock, Caller.start, Fs.isNotLocked, Fs.isLocked,
      Lockfile.check, Lockfile.lock, markerOf, isLive, findMarker, markerCount,
      countMarker, Nat.sub_self, List.count_cons, List.count_nil]

/-- Witness for the amended C2 on a concrete race, schedule A-A-B-B. -/
theorem lock_race_exactly_one_creates_witness :
    0 < 1 ∧ ([true, true, false, false] : List Bool).count true = 2 ∧
    ((raceRun ⟨⟨[], []⟩, Caller.start, Caller.start⟩ "f" 0 1
        [true, true, false, false]).a.created
      ≠ (raceRun ⟨⟨[], []⟩, Caller.start, Caller.start⟩ "f" 0 1
        [true, true, false, false]).b.created ∧
      markerCount (raceRun ⟨⟨[], []⟩, Caller.start, Caller.start⟩ "f" 0 1
        [true, true, false, false]).fs "f" = 1) :=
  ⟨by decide, by decide,
    lock_race_exactly_one_creates [] "f" 0 1 (by decide) true true false false (by decide)⟩

/-- Counterexample to claim C7 as stated: with the path validly locked by a
live holder, `lock` silently returns without error and without touching the
retry machinery, instead of failing with LockContention. -/
theorem lock_contention_cex :
    Fs.lock ⟨[], [("f", 0)]⟩ "f" 0 10 ≠ .error .lockContention ∧
    Fs.lock ⟨[], [("f", 0)]⟩ "f" 0 10 = .ok ⟨[], [("f", 0)]⟩ := by
  decide

/-- Claim C7 (amended): when the initial `isNotLocked` check observes the
path live-locked, `lock` silently returns without error; a LockContention
(ELOCKED) rejection surfaces only when the check races — under the schedule
check-a, check-b, create-a, create-b, caller b's inner `Lockfile.lock` call
rejects with `lockContention` once its (exhausted) retry budget is spent. -/
theorem lock_silent_or_contention (s : FsState) (p : String) (now stale : Nat)
    (hlive : Fs.isLocked s p now stale = .ok true) :
    Fs.lock s p now stale = .ok s ∧
    (raceRun ⟨⟨[], []⟩, Caller.start, Caller.start⟩ "f" 0 1
        [true, false, true, false]).b.result = some (.error .lockContention) := by
  constructor
  · rw [Fs.isLocked_eq] at hlive
    have h2 : isLive now stale (markerOf s p) = true := by
      injection hlive
    rw [Fs.lock_eq, if_pos h2]
  · decide

/-- Witness for the amended C7 on a concrete state locked by another live
holder. -/
theorem lock_silent_or_contention_witness :
    Fs.isLocked ⟨[], [("f", 0)]⟩ "f" 0 1 = .ok true ∧
    (Fs.lock ⟨[], [("f", 0)]⟩ "f" 0 1 = .ok ⟨[], [("f", 0)]⟩ ∧
      (raceRun ⟨⟨[], []⟩, Caller.start, Caller.start⟩ "f" 0 1
        [true, false, true, false]).b.result = some (.error .lockContention)) :=
  ⟨by decide, lock_silent_or_contention ⟨[], [("f", 0)]⟩ "f" 0 1 (by decide)⟩
